import Mathlib

/-!
Verification of the aim web UI components: the grouping popover
(option filtering, sorting and selection), the exception handler, the
ask-form submission, the bookmark popover of the text-explorer app bar,
and the table resize-mode change handler.

JavaScript strings are embedded as lists of characters.  JavaScript
`Array.prototype.sort` is stable (required since ES2019); a stable sort
under the comparator `(a, b) => k(a) - k(b)` coincides with insertion
sort by the relation `k a ≤ k b`, which is how it is embedded here.
-/

/-- JavaScript strings, embedded as lists of characters. -/
abbrev JStr := List Char

/-- Auxiliary recursion for `String.prototype.indexOf`: the index of the
first occurrence of `t` in `s`, or `-1` when `t` does not occur. -/
def jsIndexOfAux (t : JStr) : JStr → Int
  | [] => if t = [] then 0 else -1
  | c :: rest =>
    if t.isPrefixOf (c :: rest) then 0
    else if jsIndexOfAux t rest = -1 then -1 else jsIndexOfAux t rest + 1

/-- JavaScript `s.indexOf(t)`: first occurrence of `t` in `s`, or `-1`. -/
def jsIndexOf (s t : JStr) : Int := jsIndexOfAux t s

/-- JavaScript whitespace characters recognised by `String.prototype.trim`
(the ones expressible in ASCII). -/
def isJsSpace (c : Char) : Bool :=
  c = ' ' || c = '\t' || c = '\n' || c = '\r' || c = '\x0b' || c = '\x0c'

/-- JavaScript `s.trim()`: strip whitespace from both ends. -/
def jsTrim (s : JStr) : JStr :=
  ((s.dropWhile isJsSpace).reverse.dropWhile isJsSpace).reverse

/-- IGroupingSelectOption from metricsAppModel: a selectable option with a
value, a group and a display label. -/
structure IGroupingSelectOption where
  value : JStr
  group : JStr
  label : JStr
deriving DecidableEq, Repr

/-- Sort key of GroupingPopover's filtered options: the position of the
filter input inside the option's label, `label.indexOf(inputValue)`. -/
def matchKey (inputValue : JStr) (o : IGroupingSelectOption) : Int :=
  jsIndexOf o.label inputValue

/-- Comparator relation of GroupingPopover's option sort:
`(a, b) => a.label.indexOf(inputValue) - b.label.indexOf(inputValue)`. -/
abbrev labelLe (inputValue : JStr) (a b : IGroupingSelectOption) : Prop :=
  matchKey inputValue a ≤ matchKey inputValue b

/-- GroupingPopover's `options` memo: when the trimmed input is non-empty,
filter the options to those whose label contains the raw input, then
stably sort them by the position of the input in the label; otherwise
return the option list unchanged. -/
def optionsView (inputValue : JStr) (groupingSelectOptions : List IGroupingSelectOption) :
    List IGroupingSelectOption :=
  if jsTrim inputValue ≠ [] then
    List.insertionSort (labelLe inputValue)
      (groupingSelectOptions.filter (fun item => jsIndexOf item.label inputValue != -1))
  else groupingSelectOptions

/-- GroupingPopover's selection payload: `onSelect` receives the group name
and the list of selected values. -/
structure SelectPayload where
  groupName : JStr
  list : List JStr
deriving DecidableEq, Repr

/-- Items handed to GroupingPopover's `onChange` by the autocomplete: either
a raw string or a grouping option (the code checks `typeof item`). -/
def itemValue : Sum JStr IGroupingSelectOption → JStr
  | Sum.inl s => s
  | Sum.inr o => o.value

/-- GroupingPopover's `handleSelect`: build the `onSelect` payload, mapping
each item to itself when it is a string and to its `value` field otherwise. -/
def handleSelect (groupName : JStr) (values : List (Sum JStr IGroupingSelectOption)) :
    SelectPayload :=
  { groupName := groupName, list := values.map itemValue }

/-- Key name tested by GroupingPopover's `onChange` handler. -/
def backspaceStr : JStr := "Backspace".data

/-- GroupingPopover's `onChange`: given the triggering key code (`e?.code`,
absent when the event is null), the current filter input and the new values,
return the `onSelect` invocation (if any) together with the new filter
input.  A non-Backspace key selects and clears the input; Backspace selects
only when the input is already empty, and never touches the input. -/
def onChangeHandler (groupName : JStr) (code : Option JStr) (inputValue : JStr)
    (values : List (Sum JStr IGroupingSelectOption)) :
    Option SelectPayload × JStr :=
  if code ≠ some backspaceStr then
    (some (handleSelect groupName values), [])
  else if inputValue.length = 0 then
    (some (handleSelect groupName values), inputValue)
  else
    (none, inputValue)

/-- Grouping state visible to GroupingPopover: the per-group reverse-mode
flags (an object keyed by group name, embedded as a function). -/
structure GroupingData where
  reverseMode : JStr → Bool

/-- JavaScript `groupingData?.reverseMode[groupName]` coerced to a boolean:
false when `groupingData` is null. -/
def reverseModeOf (groupingData : Option GroupingData) (groupName : JStr) : Bool :=
  match groupingData with
  | some gd => gd.reverseMode groupName
  | none => false

/-- Toggle label shown when reverse mode is on. -/
def reverseStr : JStr := "Reverse".data

/-- Toggle label shown when reverse mode is off. -/
def groupStr : JStr := "Group".data

/-- Value displayed by GroupingPopover's mode ToggleButton. -/
def toggleButtonValue (groupingData : Option GroupingData) (groupName : JStr) : JStr :=
  if reverseModeOf groupingData groupName then reverseStr else groupStr

/-- Payload of GroupingPopover's `onGroupingModeChange` callback. -/
structure ModeChangePayload where
  groupName : JStr
  value : Bool
  options : Option (List IGroupingSelectOption)

/-- GroupingPopover's `handleGroupingMode`: the callback receives
`value = (val === 'Reverse')` and the full option list exactly when the
current mode is reverse (null otherwise). -/
def handleGroupingMode (groupingData : Option GroupingData) (groupName : JStr)
    (groupingSelectOptions : List IGroupingSelectOption) (val : JStr) : ModeChangePayload :=
  { groupName := groupName
    value := val == reverseStr
    options :=
      if reverseModeOf groupingData groupName then some groupingSelectOptions else none }

/-- Exception value caught by `exceptionHandler` (the `detail` argument).
Its `message` field is a string, with `[]` standing for an empty or absent
message (both falsy in JavaScript). -/
structure Detail where
  name : JStr
  line : Int
  offset : Int
  message : JStr
deriving DecidableEq, Repr

/-- Decimal rendering of an integer, as interpolated into a JS template. -/
def intToJStr (n : Int) : JStr := (toString n).data

/-- Exception name special-cased by `exceptionHandler`. -/
def syntaxErrorStr : JStr := "SyntaxError".data

/-- Generic fallback message of `exceptionHandler`. -/
def genericFallback : JStr := "Something went wrong".data

/-- Literal fragments of the syntax-error message template. -/
def queryErrOpen : JStr := "Query syntax error at line (".data

/-- Separator fragment of the syntax-error message template. -/
def commaSep : JStr := ", ".data

/-- Closing fragment of the syntax-error message template. -/
def closeParen : JStr := ")".data

/-- Message computed by `exceptionHandler`: the line/offset template for a
SyntaxError, otherwise `detail.message || 'Something went wrong'`. -/
def exceptionMessage (detail : Detail) : JStr :=
  if detail.name = syntaxErrorStr then
    queryErrOpen ++ intToJStr detail.line ++ commaSep ++ intToJStr detail.offset ++ closeParen
  else if detail.message ≠ [] then detail.message else genericFallback

/-- Request status enumeration (only BadRequest is used by the handler). -/
inductive RequestStatusEnum where
  | NotRequested
  | Pending
  | Ok
  | BadRequest
deriving DecidableEq, Repr

/-- In-app notification added by `onNotificationAdd`. -/
structure INotification where
  id : Int
  severity : JStr
  messages : List JStr
deriving DecidableEq, Repr

/-- Severity of the notification produced by `exceptionHandler`. -/
def errorSeverity : JStr := "error".data

/-- Observable actions performed by `exceptionHandler` on its model. -/
inductive HandlerEffect where
  | setRequestStatus (s : RequestStatusEnum)
  | notificationAdd (n : INotification)
  | resetModelOnError (d : Detail)
deriving DecidableEq, Repr

/-- Effect trace of `exceptionHandler`: set the request status to
BadRequest, add one error notification holding the computed message
(`Date.now()` is the parameter `now`), then reset the model on error. -/
def exceptionHandler (now : Int) (detail : Detail) : List HandlerEffect :=
  [ HandlerEffect.setRequestStatus RequestStatusEnum.BadRequest,
    HandlerEffect.notificationAdd
      { id := now, severity := errorSeverity, messages := [exceptionMessage detail] },
    HandlerEffect.resetModelOnError detail ]

/-- Recogniser for notification-adding effects. -/
def isNotificationAddEffect : HandlerEffect → Bool
  | HandlerEffect.notificationAdd _ => true
  | _ => false

/-- Recogniser for request-status effects. -/
def isSetStatusEffect : HandlerEffect → Bool
  | HandlerEffect.setRequestStatus _ => true
  | _ => false

/-- Recogniser for model-reset effects. -/
def isResetEffect : HandlerEffect → Bool
  | HandlerEffect.resetModelOnError _ => true
  | _ => false

/-- AskForm's `handleSubmit` effect on the email field: the field is
cleared when the submission result is ok and kept otherwise. -/
def askFormSubmit (ok : Bool) (email : JStr) : JStr :=
  if ok then [] else email

/-- Popover state value opening the bookmark-creation form. -/
def createStr : JStr := "create".data

/-- Popover state value opening the update-confirmation dialog. -/
def updateStr : JStr := "update".data

/-- TextExplorerAppBar's `handleBookmarkClick`: store the clicked value as
the popover state. -/
def handleBookmarkClick (value : JStr) : JStr := value

/-- TextExplorerAppBar's `handleClosePopover`: reset the popover state. -/
def handleClosePopover : JStr := []

/-- Open flag of the BookmarkForm: `popover === 'create'`. -/
def bookmarkFormOpen (popover : JStr) : Bool := popover == createStr

/-- Open flag of the update Dialog: `popover === 'update'`. -/
def updateDialogOpen (popover : JStr) : Bool := popover == updateStr

/-- Table configuration: the resize mode together with the remaining table
fields, abstracted as `β` (the spread `{...configData.table}` copies them). -/
structure TableConfig (β : Type) where
  resizeMode : JStr
  rest : β
deriving DecidableEq, Repr

/-- App configuration: an optional table section together with the
remaining config fields, abstracted as `γ`. -/
structure AppConfig (β γ : Type) where
  table : Option (TableConfig β)
  rest : γ
deriving DecidableEq, Repr

/-- Model state: an optional config together with the remaining state
fields, abstracted as `δ`. -/
structure ModelState (β γ δ : Type) where
  config : Option (AppConfig β γ)
  rest : δ
deriving DecidableEq, Repr

/-- Observable external actions of `onTableResizeModeChange`. -/
inductive TableEffect where
  | setItem (key : JStr) (value : JStr)
  | trackEvent (message : JStr)
deriving DecidableEq, Repr

/-- Storage-key suffix used by `onTableResizeModeChange`. -/
def tableSuffix : JStr := "Table".data

/-- Literal fragments of the analytics message of `onTableResizeModeChange`. -/
def trackOpen : JStr := "[".data

/-- Middle fragment of the analytics message. -/
def trackMid : JStr := "Explorer][Table] Set table view mode to \"".data

/-- Closing fragment of the analytics message. -/
def trackClose : JStr := "\"".data

/-- Analytics message of `onTableResizeModeChange`. -/
def trackMsg (page mode : JStr) : JStr :=
  trackOpen ++ page ++ trackMid ++ mode ++ trackClose

/-- onTableResizeModeChange: read `model.getState()?.config`; when its
table section exists, replace the table's resize mode, write the config
back into the model state and persist the encoded table under the key
`page + 'Table'`; in every case emit one analytics track event.  Returns
the new model state together with the effect trace.  The external `encode`
utility is a parameter. -/
def onTableResizeModeChange {β γ δ : Type} (encode : TableConfig β → JStr)
    (state : Option (ModelState β γ δ)) (mode page : JStr) :
    Option (ModelState β γ δ) × List TableEffect :=
  let configData : Option (AppConfig β γ) := (state.map (fun s => s.config)).join
  match configData with
  | some cd =>
    match cd.table with
    | some t =>
      let table : TableConfig β := { t with resizeMode := mode }
      let config : AppConfig β γ := { cd with table := some table }
      (state.map (fun s => { s with config := some config }),
        [ TableEffect.setItem (page ++ tableSuffix) (encode table),
          TableEffect.trackEvent (trackMsg page mode) ])
    | none => (state, [TableEffect.trackEvent (trackMsg page mode)])
  | none => (state, [TableEffect.trackEvent (trackMsg page mode)])

/-- Recogniser for storage writes. -/
def isSetItemEffect : TableEffect → Bool
  | TableEffect.setItem _ _ => true
  | _ => false

/-- Recogniser for analytics events. -/
def isTrackEventEffect : TableEffect → Bool
  | TableEffect.trackEvent _ => true
  | _ => false

/-- Sample filter input used for concrete evaluations. -/
def sampleInput : JStr := ['b']

/-- Sample option whose label contains the sample input at position 1. -/
def sampleOptA : IGroupingSelectOption :=
  { value := ['x'], group := ['g'], label := ['a', 'b'] }

/-- Sample option whose label contains the sample input at position 0. -/
def sampleOptB : IGroupingSelectOption :=
  { value := ['y'], group := ['g'], label := ['b', 'c'] }

/-- Sample option whose label does not contain the sample input. -/
def sampleOptC : IGroupingSelectOption :=
  { value := ['z'], group := ['g'], label := ['c', 'd'] }

/-- Sample option list used for concrete evaluations. -/
def sampleOpts : List IGroupingSelectOption := [sampleOptA, sampleOptB, sampleOptC]

/-- Non-syntax exception carrying its own message: a concrete input on
which the generic-fallback reading of the error handler fails. -/
def detailBoom : Detail :=
  { name := "TypeError".data, line := 0, offset := 0, message := "boom".data }

/-- Concrete syntax-error exception. -/
def detailSyntax : Detail :=
  { name := "SyntaxError".data, line := 3, offset := 7, message := [] }

/-- Concrete non-syntax exception with an empty message. -/
def detailEmpty : Detail :=
  { name := "TypeError".data, line := 0, offset := 0, message := [] }

/-- Concrete table configuration used for witnesses. -/
def sampleTable : TableConfig Nat := { resizeMode := "resizable".data, rest := 5 }

/-- Concrete app configuration used for witnesses. -/
def sampleConfig : AppConfig Nat Nat := { table := some sampleTable, rest := 9 }

/-- Concrete model state used for witnesses. -/
def sampleState : ModelState Nat Nat Nat := { config := some sampleConfig, rest := 2 }

/-- Concrete model state without a table section. -/
def sampleStateNoTable : ModelState Nat Nat Nat :=
  { config := some { table := none, rest := 9 }, rest := 2 }

/-- Concrete encoder used for witnesses. -/
def sampleEncode (t : TableConfig Nat) : JStr := t.resizeMode ++ intToJStr (t.rest : Int)

/-- Concrete resize mode used for witnesses. -/
def hideStr : JStr := "hide".data

/-- Concrete page name used for witnesses. -/
def runsStr : JStr := "runs".data

theorem jsIndexOfAux_eq_neg_one_or_nonneg (t : JStr) :
    ∀ s : JStr, jsIndexOfAux t s = -1 ∨ 0 ≤ jsIndexOfAux t s := by
  intro s
  induction s with
  | nil =>
    by_cases h : t = [] <;> simp [jsIndexOfAux, h]
  | cons c rest ih =>
    by_cases hp : t.isPrefixOf (c :: rest)
    · right
      simp [jsIndexOfAux, hp]
    · by_cases hr : jsIndexOfAux t rest = -1
      · left
        simp [jsIndexOfAux, hp, hr]
      · right
        simp only [jsIndexOfAux, if_neg hp, if_neg hr]
        rcases ih with h1 | h1
        · exact absurd h1 hr
        · omega

theorem jsIndexOfAux_ne_neg_one_iff (t : JStr) :
    ∀ s : JStr, jsIndexOfAux t s ≠ -1 ↔ t <:+: s := by
  intro s
  induction s with
  | nil =>
    by_cases h : t = [] <;> simp [jsIndexOfAux, h]
  | cons c rest ih =>
    by_cases hp : t.isPrefixOf (c :: rest)
    · have hpre : t <+: c :: rest := List.isPrefixOf_iff_prefix.mp hp
      simp only [jsIndexOfAux, if_pos hp]
      exact ⟨fun _ => hpre.isInfix, fun _ => by decide⟩
    · have hnpre : ¬ t <+: c :: rest := fun hc =>
        hp (List.isPrefixOf_iff_prefix.mpr hc)
      by_cases hr : jsIndexOfAux t rest = -1
      · simp only [jsIndexOfAux, if_neg hp, if_pos hr]
        constructor
        · intro h
          exact absurd rfl h
        · intro h
          rcases List.infix_cons_iff.mp h with h1 | h1
          · exact absurd h1 hnpre
          · exact absurd hr (ih.mpr h1)
      · have h0 : 0 ≤ jsIndexOfAux t rest := by
          rcases jsIndexOfAux_eq_neg_one_or_nonneg t rest with h | h
          · exact absurd h hr
          · exact h
        simp only [jsIndexOfAux, if_neg hp, if_neg hr]
        constructor
        · intro _
          exact List.infix_cons_iff.mpr (Or.inr (ih.mp hr))
        · intro _
          omega

/-- Containment of `t` in `s` as a substring is what `indexOf` tests. -/
theorem jsIndexOf_ne_neg_one_iff (s t : JStr) :
    jsIndexOf s t ≠ -1 ↔ t <:+: s :=
  jsIndexOfAux_ne_neg_one_iff t s

theorem filter_orderedInsert_key {α : Type} (key : α → Int) (k : Int) (a : α) (l : List α) :
    List.filter (fun x => key x == k)
        (List.orderedInsert (fun x y => key x ≤ key y) a l)
      = if key a == k then a :: List.filter (fun x => key x == k) l
        else List.filter (fun x => key x == k) l := by
  induction l with
  | nil =>
    simp only [List.orderedInsert, List.filter_cons, List.filter_nil]
  | cons b l ih =>
    by_cases hab : key a ≤ key b
    · simp only [List.orderedInsert, if_pos hab, List.filter_cons]
    · have hba : key b < key a := lt_of_not_ge hab
      simp only [List.orderedInsert, if_neg hab, List.filter_cons, ih]
      by_cases ha : key a == k
      · have hb : ¬ (key b == k) := by
          simp only [beq_iff_eq] at ha ⊢
          omega
        simp [ha, hb]
      · by_cases hb : key b == k <;> simp [ha, hb]

theorem filter_insertionSort_key {α : Type} (key : α → Int) (k : Int) (l : List α) :
    List.filter (fun x => key x == k)
        (List.insertionSort (fun x y => key x ≤ key y) l)
      = List.filter (fun x => key x == k) l := by
  induction l with
  | nil => rfl
  | cons a l ih =>
    simp only [List.insertionSort, filter_orderedInsert_key, ih, List.filter_cons]

theorem sorted_insertionSort_key {α : Type} (key : α → Int) (l : List α) :
    List.Sorted (fun x y => key x ≤ key y)
      (List.insertionSort (fun x y => key x ≤ key y) l) := by
  haveI : IsTotal α (fun x y => key x ≤ key y) := ⟨fun a b => le_total _ _⟩
  haveI : IsTrans α (fun x y => key x ≤ key y) :=
    ⟨fun a b c hab hbc => le_trans hab hbc⟩
  exact List.sorted_insertionSort _ l

/-- C1: in GroupingPopover, for a filter input that is non-empty after
trimming, the displayed option list contains exactly the options whose
label contains the input as a substring, is sorted by the position of the
input in the label, and options matching at the same position keep their
original relative order; for an input that trims to empty, the option list
is returned unchanged. -/
theorem groupingPopover_options_characterization
    (inputValue : JStr) (opts : List IGroupingSelectOption) :
    (jsTrim inputValue = [] → optionsView inputValue opts = opts) ∧
    (jsTrim inputValue ≠ [] →
      (optionsView inputValue opts).Perm
          (opts.filter (fun o => jsIndexOf o.label inputValue != -1)) ∧
      (∀ o, o ∈ optionsView inputValue opts ↔ o ∈ opts ∧ inputValue <:+: o.label) ∧
      List.Sorted (labelLe inputValue) (optionsView inputValue opts) ∧
      (∀ k : Int,
        (optionsView inputValue opts).filter (fun o => matchKey inputValue o == k)
          = (opts.filter (fun o => jsIndexOf o.label inputValue != -1)).filter
              (fun o => matchKey inputValue o == k))) := by
  constructor
  · intro h
    simp [optionsView, h]
  · intro h
    have hview : optionsView inputValue opts
        = List.insertionSort (labelLe inputValue)
            (opts.filter (fun item => jsIndexOf item.label inputValue != -1)) := by
      simp [optionsView, h]
    have hperm : (optionsView inputValue opts).Perm
        (opts.filter (fun o => jsIndexOf o.label inputValue != -1)) := by
      rw [hview]
      exact List.perm_insertionSort _ _
    refine ⟨hperm, ?_, ?_, ?_⟩
    · intro o
      rw [hperm.mem_iff, List.mem_filter]
      simp [jsIndexOf_ne_neg_one_iff]
    · rw [hview]
      exact sorted_insertionSort_key (matchKey inputValue) _
    · intro k
      rw [hview]
      exact filter_insertionSort_key (matchKey inputValue) k _

theorem groupingPopover_options_characterization_witness :
    List.Sorted (labelLe sampleInput) (optionsView sampleInput sampleOpts) :=
  (((groupingPopover_options_characterization sampleInput sampleOpts).2
      (by decide)).2).2.1

/-- C2 fails as stated: a non-SyntaxError exception carrying its own
non-empty message produces that message, not the generic fallback. -/
theorem exceptionMessage_generic_counterexample :
    detailBoom.name ≠ syntaxErrorStr ∧ exceptionMessage detailBoom ≠ genericFallback := by
  decide

/-- C2 (amended): a SyntaxError yields the line/offset template message;
any other exception yields its own message when that is non-empty, and the
generic fallback only when its message is empty. -/
theorem exceptionMessage_cases (d : Detail) :
    (d.name = syntaxErrorStr →
      exceptionMessage d
        = queryErrOpen ++ intToJStr d.line ++ commaSep
            ++ intToJStr d.offset ++ closeParen) ∧
    (d.name ≠ syntaxErrorStr → d.message ≠ [] → exceptionMessage d = d.message) ∧
    (d.name ≠ syntaxErrorStr → d.message = [] → exceptionMessage d = genericFallback) :=
  ⟨fun h => by simp [exceptionMessage, h],
   fun h hm => by simp [exceptionMessage, h, hm],
   fun h hm => by simp [exceptionMessage, h, hm]⟩

theorem exceptionMessage_cases_witness :
    exceptionMessage detailSyntax
      = queryErrOpen ++ intToJStr detailSyntax.line ++ commaSep
          ++ intToJStr detailSyntax.offset ++ closeParen :=
  (exceptionMessage_cases detailSyntax).1 (by decide)

/-- C3: every exceptionHandler call sets the request status to BadRequest,
adds exactly one notification — with severity error and a single-element
message list — and resets the model on the same exception. -/
theorem exceptionHandler_effects_spec (now : Int) (d : Detail) :
    (exceptionHandler now d).countP isNotificationAddEffect = 1 ∧
    HandlerEffect.notificationAdd
        { id := now, severity := errorSeverity, messages := [exceptionMessage d] }
      ∈ exceptionHandler now d ∧
    [exceptionMessage d].length = 1 ∧
    (exceptionHandler now d).countP isSetStatusEffect = 1 ∧
    HandlerEffect.setRequestStatus RequestStatusEnum.BadRequest ∈ exceptionHandler now d ∧
    (exceptionHandler now d).countP isResetEffect = 1 ∧
    HandlerEffect.resetModelOnError d ∈ exceptionHandler now d := by
  simp [exceptionHandler, List.countP_cons, isNotificationAddEffect,
    isSetStatusEffect, isResetEffect]

/-- C4: the ToggleButton shows Reverse exactly when reverse mode holds for
the group (and Group otherwise), and handleGroupingMode passes value true
exactly when the selected toggle value is Reverse, with the full option
list when the current mode is reverse and null otherwise. -/
theorem groupingMode_toggle_spec (gd : Option GroupingData) (g : JStr)
    (opts : List IGroupingSelectOption) (val : JStr) :
    (toggleButtonValue gd g = reverseStr ↔ reverseModeOf gd g = true) ∧
    (toggleButtonValue gd g = groupStr ↔ reverseModeOf gd g = false) ∧
    ((handleGroupingMode gd g opts val).value = true ↔ val = reverseStr) ∧
    (reverseModeOf gd g = true → (handleGroupingMode gd g opts val).options = some opts) ∧
    (reverseModeOf gd g = false → (handleGroupingMode gd g opts val).options = none) ∧
    (handleGroupingMode gd g opts val).groupName = g := by
  have hne : reverseStr ≠ groupStr := by decide
  refine ⟨?_, ?_, ?_, fun h => ?_, fun h => ?_, rfl⟩
  · cases hrm : reverseModeOf gd g <;>
      simp [toggleButtonValue, hrm, hne, Ne.symm hne]
  · cases hrm : reverseModeOf gd g <;>
      simp [toggleButtonValue, hrm, hne, Ne.symm hne]
  · simp [handleGroupingMode]
  · simp [handleGroupingMode, h]
  · simp [handleGroupingMode, h]

theorem groupingMode_toggle_spec_witness :
    (handleGroupingMode (some { reverseMode := fun _ => true })
        ['g'] sampleOpts reverseStr).options = some sampleOpts :=
  ((groupingMode_toggle_spec (some { reverseMode := fun _ => true })
      ['g'] sampleOpts reverseStr).2.2.2.1) (by decide)

/-- C5: AskForm clears the email field exactly on an ok submission result
and leaves it unchanged on a non-ok result. -/
theorem askForm_submit_spec (email : JStr) :
    askFormSubmit true email = [] ∧ askFormSubmit false email = email := by
  simp [askFormSubmit]

/-- C6: the bookmark-creation form is open exactly when the popover state
is create, the update dialog exactly when it is update, clicking a menu
entry stores the clicked value, and closing resets the state to the empty
string, under which both are closed. -/
theorem textExplorerAppBar_popover_spec (s : JStr) :
    (bookmarkFormOpen s = true ↔ s = createStr) ∧
    (updateDialogOpen s = true ↔ s = updateStr) ∧
    bookmarkFormOpen (handleBookmarkClick createStr) = true ∧
    updateDialogOpen (handleBookmarkClick updateStr) = true ∧
    handleClosePopover = [] ∧
    bookmarkFormOpen handleClosePopover = false ∧
    updateDialogOpen handleClosePopover = false := by
  refine ⟨?_, ?_, by decide, by decide, rfl, by decide, by decide⟩ <;>
    simp [bookmarkFormOpen, updateDialogOpen]

theorem textExplorerAppBar_popover_spec_witness :
    bookmarkFormOpen createStr = true :=
  (textExplorerAppBar_popover_spec createStr).1.mpr rfl

/-- C7: when the model state has a config with a table section, the new
table configuration — resize mode replaced by the requested mode — is
persisted exactly once to local storage, under the key formed by the page
name followed by Table, with the value produced by the external encoder. -/
theorem onTableResizeModeChange_persists {β γ δ : Type} (encode : TableConfig β → JStr)
    (s : ModelState β γ δ) (cd : AppConfig β γ) (t : TableConfig β) (mode page : JStr)
    (hc : s.config = some cd) (ht : cd.table = some t) :
    TableEffect.setItem (page ++ tableSuffix) (encode { t with resizeMode := mode })
      ∈ (onTableResizeModeChange encode (some s) mode page).2 ∧
    (onTableResizeModeChange encode (some s) mode page).2.countP isSetItemEffect = 1 := by
  simp [onTableResizeModeChange, hc, ht, List.countP_cons, isSetItemEffect]

theorem onTableResizeModeChange_persists_witness :
    TableEffect.setItem (runsStr ++ tableSuffix)
        (sampleEncode { sampleTable with resizeMode := hideStr })
      ∈ (onTableResizeModeChange sampleEncode (some sampleState) hideStr runsStr).2 :=
  (onTableResizeModeChange_persists sampleEncode sampleState sampleConfig sampleTable
      hideStr runsStr rfl rfl).1

/-- C8: under a defined config.table, the call changes only the table's
resize mode: the config's other fields and the table's other fields are
unchanged, and the resize mode becomes the requested mode. -/
theorem onTableResizeModeChange_frame {β γ δ : Type} (encode : TableConfig β → JStr)
    (s : ModelState β γ δ) (cd : AppConfig β γ) (t : TableConfig β) (mode page : JStr)
    (hc : s.config = some cd) (ht : cd.table = some t) :
    ∃ cd' t',
      (onTableResizeModeChange encode (some s) mode page).1
          = some { s with config := some cd' } ∧
      cd'.table = some t' ∧ cd'.rest = cd.rest ∧
      t'.resizeMode = mode ∧ t'.rest = t.rest := by
  refine ⟨{ cd with table := some { t with resizeMode := mode } },
    { t with resizeMode := mode }, ?_, rfl, rfl, rfl, rfl⟩
  simp [onTableResizeModeChange, hc, ht]

theorem onTableResizeModeChange_frame_witness :
    ∃ cd' t',
      (onTableResizeModeChange sampleEncode (some sampleState) hideStr runsStr).1
          = some { sampleState with config := some cd' } ∧
      cd'.table = some t' ∧ cd'.rest = sampleConfig.rest ∧
      t'.resizeMode = hideStr ∧ t'.rest = sampleTable.rest :=
  onTableResizeModeChange_frame sampleEncode sampleState sampleConfig sampleTable
    hideStr runsStr rfl rfl

/-- C9: every call emits exactly one analytics track event; when the model
state has no config.table, the state is returned unchanged and nothing is
written to local storage. -/
theorem onTableResizeModeChange_analytics {β γ δ : Type} (encode : TableConfig β → JStr)
    (state : Option (ModelState β γ δ)) (mode page : JStr) :
    (onTableResizeModeChange encode state mode page).2.countP isTrackEventEffect = 1 ∧
    (((state.map (fun s => s.config)).join.map (fun cd => cd.table)).join = none →
      (onTableResizeModeChange encode state mode page).1 = state ∧
      (onTableResizeModeChange encode state mode page).2.countP isSetItemEffect = 0) := by
  rcases state with _ | s
  · simp [onTableResizeModeChange, List.countP_cons, isTrackEventEffect, isSetItemEffect]
  · rcases hc : s.config with _ | cd
    · simp [onTableResizeModeChange, hc, List.countP_cons,
        isTrackEventEffect, isSetItemEffect]
    · rcases ht : cd.table with _ | t
      · simp [onTableResizeModeChange, hc, ht, List.countP_cons,
          isTrackEventEffect, isSetItemEffect]
      · simp [onTableResizeModeChange, hc, ht, List.countP_cons,
          isTrackEventEffect, isSetItemEffect]

theorem onTableResizeModeChange_analytics_witness :
    (onTableResizeModeChange sampleEncode (some sampleStateNoTable) hideStr runsStr).1
      = some sampleStateNoTable :=
  ((onTableResizeModeChange_analytics sampleEncode (some sampleStateNoTable)
      hideStr runsStr).2 (by decide)).1

/-- C10: with Backspace pressed while the filter input is non-empty, the
selection callback is not invoked and the input is kept; with any other
key the callback is invoked with the mapped new values and the input is
reset to the empty string. -/
theorem groupingPopover_onChange_spec (g : JStr) (code : Option JStr) (input : JStr)
    (values : List (Sum JStr IGroupingSelectOption)) :
    (code = some backspaceStr → input ≠ [] →
      (onChangeHandler g code input values).1 = none ∧
      (onChangeHandler g code input values).2 = input) ∧
    (code ≠ some backspaceStr →
      (onChangeHandler g code input values).1 = some (handleSelect g values) ∧
      (onChangeHandler g code input values).2 = []) := by
  constructor
  · intro hc hi
    simp [onChangeHandler, hc, hi, List.length_eq_zero]
  · intro hc
    simp [onChangeHandler, hc]

theorem groupingPopover_onChange_spec_witness :
    (onChangeHandler groupStr (some backspaceStr) sampleInput []).1 = none :=
  ((groupingPopover_onChange_spec groupStr (some backspaceStr) sampleInput []).1
      rfl (by decide)).1
